import Mathlib

/-!
Verification of the advocate directory-search service
(repository: solace-candidate-assignment).

The development shallowly embeds the server slice that the specification
documents: the validated filter contract (`dto.ts` / spec section 4.1), the
repository query builder (`AdvocateRepository` in the paginated variant,
`src/unnamed/part_002`), the list and lookup HTTP routes
(`src/unnamed/part_000`, `src/unnamed/part_001`), the seed route
(`src/app/api/seed/route.ts`), the centralized error handler
(`src/server/lib/error-handler.ts`), the row-to-model conversion in force
in this slice (the model variant exporting the `advocates` pgTable, staged
at `src/server/lib/error-handler.ts` lines 100-123, which the paginated
repository and the seed route import), and the client query-string
builder (`AdvocatesApi.buildQueryString`, `src/unnamed/part_004`).

The database is modelled as a list of rows; SQL `ILIKE` is modelled by a
pattern matcher over lowercased character lists with the wildcards `%` and
`_` and backslash escaping; JSONB array containment (`@>`) on string arrays
is modelled as element-wise membership; JSON response bodies are modelled
by a small `Json` inductive.
-/

/-- JSON values, used for response bodies and for raw storage values. -/
inductive Json where
  | str (s : String)
  | num (n : Int)
  | boolean (b : Bool)
  | null
  | arr (xs : List Json)
  | obj (fields : List (String × Json))

/-- Field lookup in a JSON object (first occurrence). -/
def jGet (j : Json) (key : String) : Option Json :=
  match j with
  | Json.obj fields => (fields.find? (fun p => p.1 == key)).map (fun p => p.2)
  | _ => none

/-- An advocate row as stored in the `advocates` table, with the field types
of the Drizzle schema (`text`, `jsonb` holding a string array, `integer`,
`bigint`).  `yearsOfExperience` and `phoneNumber` are modelled as `Int`
because the storage columns admit any integer; the response schema
constrains them further. -/
structure Advocate where
  id : Option Int := none
  firstName : String := ""
  lastName : String := ""
  city : String := ""
  degree : String := ""
  specialties : List String := []
  yearsOfExperience : Int := 0
  phoneNumber : Int := 1
  createdAt : Option String := none
deriving Repr, DecidableEq

/-- The validated filter (`FilterAdvocatesDto`).  `search`, `city`,
`degree`, `specialty` come from `filterAdvocatesSchema` in `dto.ts`;
`minYearsOfExperience` is its coerced non-negative integer.  `limit` and
`offset` are the pagination fields used by the paginated route and
repository (`validatedFilter.limit ?? 10`, `validatedFilter.offset ?? 0`). -/
structure FilterAdvocatesDto where
  search : Option String := none
  city : Option String := none
  degree : Option String := none
  specialty : Option String := none
  minYearsOfExperience : Option Nat := none
  limit : Option Nat := none
  offset : Option Nat := none
deriving Repr, DecidableEq

/-- JavaScript truthiness of an optional string: `undefined` and the empty
string are falsy (`if (filter.search)` etc. in `findByFilter`). -/
def optTruthy : Option String → Bool
  | none => false
  | some s => decide (s ≠ "")

/-- All suffixes of a list, the list itself first and `[]` last. -/
def sufs : List Char → List (List Char)
  | [] => [[]]
  | c :: cs => (c :: cs) :: sufs cs

/-- SQL `LIKE` matching on character lists: `%` matches any sequence, `_`
matches any single character, a backslash escapes the following pattern
character (PostgreSQL's default escape).  A pattern ending in a lone
backslash matches nothing (PostgreSQL raises an error there). -/
def likeMatch : List Char → List Char → Bool
  | [], s => s.isEmpty
  | p :: ps, s =>
    if p = '%' then (sufs s).any (fun t => likeMatch ps t)
    else if p = '\\' then
      match ps, s with
      | q :: ps2, c :: cs => q == c && likeMatch ps2 cs
      | _, _ => false
    else if p = '_' then
      match s with
      | _ :: cs => likeMatch ps cs
      | [] => false
    else
      match s with
      | c :: cs => p == c && likeMatch ps cs
      | [] => false

/-- Lowercase a character list. -/
def lowerL (l : List Char) : List Char := l.map Char.toLower

/-- SQL `ILIKE`: case-insensitive `LIKE`, modelled by lowercasing both the
pattern and the subject.  The repository's
`LOWER(specialties::text) LIKE LOWER(pattern)` has the same semantics. -/
def ilikeB (field pat : String) : Bool :=
  likeMatch (lowerL pat.data) (lowerL field.data)

/-- The PostgreSQL text form of the `specialties` JSONB array
(`specialties::text`), e.g. `["Bipolar", "Anxiety"]`.  String escaping is
not modelled; the specialty strings in play contain no quotes. -/
def serializeSpecialties (xs : List String) : String :=
  "[" ++ String.intercalate ", " (xs.map (fun s => "\"" ++ s ++ "\"")) ++ "]"

/-- The free-text search condition of `findByFilter`
(`src/unnamed/part_002`): `ILIKE '%s%'` over `firstName`, `lastName`,
`city`, `degree`, joined by OR with a case-insensitive `LIKE` over the
serialized `specialties` JSONB. -/
def searchCond (s : String) (a : Advocate) : Bool :=
  ilikeB a.firstName ("%" ++ s ++ "%") ||
  ilikeB a.lastName ("%" ++ s ++ "%") ||
  ilikeB a.city ("%" ++ s ++ "%") ||
  ilikeB a.degree ("%" ++ s ++ "%") ||
  ilikeB (serializeSpecialties a.specialties) ("%" ++ s ++ "%")

/-- JSONB array containment `super @> sub` for arrays of strings: every
element of `sub` occurs in `super`. -/
def jsonbContainsArr (super sub : List String) : Bool :=
  sub.all (fun x => super.contains x)

/-- The WHERE conditions pushed by `AdvocateRepository.findByFilter`
(`src/unnamed/part_002`), in push order: free-text search; `city`
(`ILIKE '%city%'`, only when `search` is not truthy); `degree` (exact
equality, only when `search` is not truthy); `specialty` (JSONB `@>`);
`minYearsOfExperience` (`gte`, applied whenever the field is defined). -/
def filterConditions (f : FilterAdvocatesDto) : List (Advocate → Bool) :=
  (if optTruthy f.search then [searchCond (f.search.getD "")] else []) ++
  (if optTruthy f.city && !optTruthy f.search then
    [fun a => ilikeB a.city ("%" ++ f.city.getD "" ++ "%")] else []) ++
  (if optTruthy f.degree && !optTruthy f.search then
    [fun a => a.degree == f.degree.getD ""] else []) ++
  (if optTruthy f.specialty then
    [fun a => jsonbContainsArr a.specialties [f.specialty.getD ""]] else []) ++
  (match f.minYearsOfExperience with
   | some m => [fun a => decide ((m : Int) ≤ a.yearsOfExperience)]
   | none => [])

/-- Conjunction of all pushed conditions (`and(...conditions)`). -/
def findByFilterPred (f : FilterAdvocatesDto) (a : Advocate) : Bool :=
  (filterConditions f).all (fun c => c a)

/-- `conditions.length > 0 ? and(...conditions) : undefined`. -/
def whereClauseOpt (f : FilterAdvocatesDto) : Option (Advocate → Bool) :=
  if (filterConditions f).isEmpty then none
  else some (findByFilterPred f)

/-- Result of a paginated repository query. -/
structure PaginatedResult where
  data : List Advocate
  total : Nat
deriving Repr, DecidableEq

/-- `AdvocateRepository.executePaginatedQuery`: one windowed SELECT and one
COUNT over the same optional WHERE clause.  `LIMIT l OFFSET o` drops `o`
rows then takes `l`; the count ignores the window. -/
def executePaginatedQuery (whereClause : Option (Advocate → Bool))
    (limit offset : Nat) (db : List Advocate) : PaginatedResult :=
  let rows := match whereClause with
    | some w => db.filter w
    | none => db
  { data := (rows.drop offset).take limit, total := rows.length }

/-- `AdvocateRepository.findByFilter` (paginated variant). -/
def findByFilter (f : FilterAdvocatesDto) (limit offset : Nat)
    (db : List Advocate) : PaginatedResult :=
  executePaginatedQuery (whereClauseOpt f) limit offset db

/-- `hasFilters`: at least one of the five filter fields is defined
(compared with `!== undefined`, not truthiness). -/
def hasFilters (f : FilterAdvocatesDto) : Bool :=
  f.search.isSome || f.city.isSome || f.degree.isSome ||
  f.specialty.isSome || f.minYearsOfExperience.isSome

/-- `AdvocateRepository.findAll` (paginated variant): defaults
`limit ?? 10`, `offset ?? 0`; dispatches to `findByFilter` when any filter
field is defined, else runs the unfiltered paginated query. -/
def findAll (filters : Option FilterAdvocatesDto) (db : List Advocate) : PaginatedResult :=
  let limit := (filters.bind (fun f => f.limit)).getD 10
  let offset := (filters.bind (fun f => f.offset)).getD 0
  match filters with
  | some f =>
    if hasFilters f then findByFilter f limit offset db
    else executePaginatedQuery none limit offset db
  | none => executePaginatedQuery none limit offset db

/-- `AdvocateRepository.findById`: `WHERE id = ? LIMIT 1`. -/
def findById (db : List Advocate) (i : Int) : Option Advocate :=
  db.find? (fun a => a.id == some i)

/-- The effective row predicate of `findAll`: the filter conditions when
dispatching to `findByFilter`, everything otherwise. -/
def findAllPred (filters : Option FilterAdvocatesDto) (a : Advocate) : Bool :=
  match filters with
  | some f => if hasFilters f then findByFilterPred f a else true
  | none => true

/-- Substring test on character lists: some suffix of `hay` starts with
`needle`. -/
def substrB (needle hay : List Char) : Bool :=
  (sufs hay).any (fun t => needle.isPrefixOf t)

/-- JavaScript `String.prototype.includes` (case-sensitive substring). -/
def strIncludes (hay needle : String) : Bool :=
  substrB needle.data hay.data

/-- Numeric value of a list of decimal digit characters. -/
def digitsVal (l : List Char) : Nat :=
  l.foldl (fun acc c => acc * 10 + (c.toNat - 48)) 0

/-- JavaScript `Number(string)` on the decimal-literal fragment: trims
whitespace, the empty string is `0`, an optional sign followed by digits
with an optional fractional part; anything else is NaN (`none`).
(Exponents, hex literals and `Infinity` are outside the fragment the
repository's query parameters use.) -/
def jsNumber (s : String) : Option Rat :=
  let cs := s.data.dropWhile Char.isWhitespace
  let cs := ((cs.reverse).dropWhile Char.isWhitespace).reverse
  if cs.isEmpty then some 0
  else
    let sign : Int := if cs.headD ' ' = '-' then -1 else 1
    let cs2 := match cs with
      | '-' :: r => r
      | '+' :: r => r
      | r => r
    let ip := cs2.takeWhile Char.isDigit
    let rest := cs2.dropWhile Char.isDigit
    match rest with
    | [] => if ip.isEmpty then none else some (mkRat (sign * digitsVal ip) 1)
    | '.' :: fr =>
      let fp := fr.takeWhile Char.isDigit
      let rest2 := fr.dropWhile Char.isDigit
      if rest2.isEmpty && !(ip.isEmpty && fp.isEmpty) then
        some (mkRat (sign * (digitsVal ip * 10 ^ fp.length + digitsVal fp))
          (10 ^ fp.length))
      else none
    | _ => none

/-- A Zod validation issue: the path to the offending field and the
human-readable message. -/
structure ZodIssue where
  path : List String
  message : String
deriving Repr, DecidableEq

/-- `error.errors.map((e) => ...)` format of `handleApiError`:
`"<path joined by dots>: <message>"`. -/
def fmtIssue (i : ZodIssue) : String :=
  String.intercalate "." i.path ++ ": " ++ i.message

/-- `z.coerce.number().int().min(0).optional()` on a raw query parameter
(the `minYearsOfExperience` field of `filterAdvocatesSchema`, and the
spec's `offset`): coercion failure, non-integer, and negative values each
contribute an issue with Zod's standard messages. -/
def coerceNonnegInt (field : String) (v : Option String) :
    List ZodIssue × Option Nat :=
  match v with
  | none => ([], none)
  | some s =>
    match jsNumber s with
    | none => ([⟨[field], "Expected number, received nan"⟩], none)
    | some q =>
      let is :=
        (if q.den == 1 then [] else
          [⟨[field], "Expected integer, received float"⟩]) ++
        (if q < 0 then
          [⟨[field], "Number must be greater than or equal to 0"⟩] else [])
      if is.isEmpty then ([], some q.num.toNat) else (is, none)

/-- `z.coerce.number().int().positive().optional()`: like
`coerceNonnegInt` but zero is also rejected (`limit` must be a positive
bound). -/
def coercePosInt (field : String) (v : Option String) :
    List ZodIssue × Option Nat :=
  match v with
  | none => ([], none)
  | some s =>
    match jsNumber s with
    | none => ([⟨[field], "Expected number, received nan"⟩], none)
    | some q =>
      let is :=
        (if q.den == 1 then [] else
          [⟨[field], "Expected integer, received float"⟩]) ++
        (if q ≤ 0 then
          [⟨[field], "Number must be greater than 0"⟩] else [])
      if is.isEmpty then ([], some q.num.toNat) else (is, none)

/-- `Object.fromEntries(searchParams.entries())`: a later occurrence of a
key overwrites an earlier one. -/
def lookupParam (q : List (String × String)) (k : String) : Option String :=
  ((q.filter (fun p => p.1 == k)).getLast?).map (fun p => p.2)

/-- `filterAdvocatesSchema.safeParse` on the raw query parameters.  The
four plain string fields always validate; `minYearsOfExperience` is the
coerced non-negative integer of `dto.ts`.

The `limit` and `offset` entries are modelled from the spec: the schema
variant carrying them is absent from the snapshot (the paginated route
reads `validatedFilter.limit`/`offset`, which the snapshot's `dto.ts`
lacks).  Per spec section 4.1, both are coerced from string to integer,
coercion failure is a validation failure, no field allows negative values,
and `limit=0` is rejected (a positive bound); `limit` is absent-able and
defaults to 10 at the route.  Issues are collected across every offending
field, in schema shape order. -/
def filterAdvocatesSafeParse (q : List (String × String)) :
    Except (List ZodIssue) FilterAdvocatesDto :=
  let my := coerceNonnegInt "minYearsOfExperience"
    (lookupParam q "minYearsOfExperience")
  let li := coercePosInt "limit" (lookupParam q "limit")
  let off := coerceNonnegInt "offset" (lookupParam q "offset")
  match my.1 ++ li.1 ++ off.1 with
  | [] => Except.ok
      { search := lookupParam q "search"
        city := lookupParam q "city"
        degree := lookupParam q "degree"
        specialty := lookupParam q "specialty"
        minYearsOfExperience := my.2
        limit := li.2
        offset := off.2 }
  | issues => Except.error issues

/-- `advocateResponseSchema.parse` on a converted model: `firstName`,
`lastName`, `city`, `degree` must be non-empty, `yearsOfExperience`
non-negative, `phoneNumber` positive; `id`, `specialties`, `createdAt`
always conform in the typed model.  All issues are collected, in shape
order, and the parsed value is the input itself (the DTO is a field
copy). -/
def advocateResponseParse (a : Advocate) : Except (List ZodIssue) Advocate :=
  let is :=
    (if a.firstName = "" then
      [⟨["firstName"], "First name is required"⟩] else []) ++
    (if a.lastName = "" then
      [⟨["lastName"], "Last name is required"⟩] else []) ++
    (if a.city = "" then [⟨["city"], "City is required"⟩] else []) ++
    (if a.degree = "" then [⟨["degree"], "Degree is required"⟩] else []) ++
    (if a.yearsOfExperience < 0 then
      [⟨["yearsOfExperience"], "Years of experience must be non-negative"⟩]
     else []) ++
    (if a.phoneNumber ≤ 0 then
      [⟨["phoneNumber"], "Phone number must be positive"⟩] else [])
  if is.isEmpty then Except.ok a else Except.error is

/-- The JSON serialization of an advocate DTO (`Response.json`): optional
fields are omitted when undefined. -/
def advocateJson (a : Advocate) : Json :=
  Json.obj
    ((match a.id with
      | some i => [("id", Json.num i)]
      | none => []) ++
     [("firstName", Json.str a.firstName),
      ("lastName", Json.str a.lastName),
      ("city", Json.str a.city),
      ("degree", Json.str a.degree),
      ("specialties", Json.arr (a.specialties.map Json.str)),
      ("yearsOfExperience", Json.num a.yearsOfExperience),
      ("phoneNumber", Json.num a.phoneNumber)] ++
     (match a.createdAt with
      | some t => [("createdAt", Json.str t)]
      | none => []))

/-- An HTTP response: status code and JSON body. -/
structure ApiResponse where
  status : Nat
  body : Json

/-- The errors reaching `handleApiError`: a Zod validation error carrying
its issue list, or a plain `Error` carrying its message. -/
inductive ApiError where
  | zod (issues : List ZodIssue)
  | plain (message : String)

/-- `handleApiError` (`src/server/lib/error-handler.ts`): Zod errors map
to 400 with per-field detail strings; messages containing
`duplicate key value` map to 409; messages containing `connection` or
`database` map to 503; anything else maps to 500, with the message added
as `details` only in development mode. -/
def handleApiError (e : ApiError) (isDev : Bool) : ApiResponse :=
  match e with
  | ApiError.zod issues =>
    { status := 400
      body := Json.obj
        [("error", Json.str "Validation error"),
         ("details", Json.arr (issues.map (fun i => Json.str (fmtIssue i))))] }
  | ApiError.plain msg =>
    if strIncludes msg "duplicate key value" then
      { status := 409
        body := Json.obj
          [("error", Json.str "Resource already exists"),
           ("message", Json.str msg)] }
    else if strIncludes msg "connection" || strIncludes msg "database" then
      { status := 503
        body := Json.obj [("error", Json.str "Database connection error")] }
    else
      { status := 500
        body := Json.obj
          ([("error", Json.str "Internal server error")] ++
           (if isDev then [("details", Json.str msg)] else [])) }

/-- `GET /api/advocates` (`src/unnamed/part_000`): parse and validate the
query parameters (failure throws the ZodError into `handleApiError`);
fetch the paginated result; convert each model through
`advocateResponseSchema.parse` (the first invalid row throws); build the
envelope with `hasMore = offset + data.length < total`; re-validate the
outgoing envelope with `getAdvocatesResponseSchema.parse` (the same
per-item checks, run again on the already-validated DTOs).  Routes run in
production mode (`isDev = false`). -/
def advocatesGet (db : List Advocate) (q : List (String × String)) :
    ApiResponse :=
  match filterAdvocatesSafeParse q with
  | Except.error issues => handleApiError (ApiError.zod issues) false
  | Except.ok f =>
    let limit := f.limit.getD 10
    let offset := f.offset.getD 0
    let result := findAll (some f) db
    match result.data.mapM advocateResponseParse with
    | Except.error issues => handleApiError (ApiError.zod issues) false
    | Except.ok dtos =>
      match dtos.mapM advocateResponseParse with
      | Except.error issues => handleApiError (ApiError.zod issues) false
      | Except.ok dtos2 =>
        let hasMore := decide (offset + result.data.length < result.total)
        { status := 200
          body := Json.obj
            [("data", Json.arr (dtos2.map advocateJson)),
             ("pagination", Json.obj
               [("limit", Json.num limit),
                ("offset", Json.num offset),
                ("total", Json.num result.total),
                ("hasMore", Json.boolean hasMore)])] }

/-- JavaScript `parseInt(s, 10)`: skip leading whitespace, optional sign,
then the longest prefix of decimal digits; NaN (`none`) when no digit is
found. -/
def parseIntJs (s : String) : Option Int :=
  let cs := s.data.dropWhile Char.isWhitespace
  let neg := cs.headD ' ' = '-'
  let cs2 := match cs with
    | '-' :: r => r
    | '+' :: r => r
    | r => r
  let ds := cs2.takeWhile Char.isDigit
  if ds.isEmpty then none
  else some ((if neg then -1 else 1) * (digitsVal ds : Int))

/-- `GET /api/advocates/[id]` (`src/unnamed/part_001`): `parseInt` the
path segment, rejecting NaN and non-positive values with 400; 404 when no
row matches; otherwise convert through `advocateResponseSchema.parse`
(throwing into `handleApiError` on an invalid row), re-validate with
`getAdvocateResponseSchema.parse`, and answer 200 with `{ data }`. -/
def advocateIdGet (db : List Advocate) (idStr : String) : ApiResponse :=
  match parseIntJs idStr with
  | none =>
    { status := 400
      body := Json.obj
        [("error", Json.str "Invalid ID"),
         ("message", Json.str "ID must be a positive integer")] }
  | some i =>
    if i ≤ 0 then
      { status := 400
        body := Json.obj
          [("error", Json.str "Invalid ID"),
           ("message", Json.str "ID must be a positive integer")] }
    else
      match findById db i with
      | none =>
        { status := 404
          body := Json.obj
            [("error", Json.str "Not found"),
             ("message",
              Json.str ("Advocate with ID " ++ toString i ++ " not found"))] }
      | some a =>
        match advocateResponseParse a with
        | Except.error issues => handleApiError (ApiError.zod issues) false
        | Except.ok dto =>
          match advocateResponseParse dto with
          | Except.error issues => handleApiError (ApiError.zod issues) false
          | Except.ok dto2 =>
            { status := 200
              body := Json.obj [("data", advocateJson dto2)] }

/-- Modelled from the spec: the seed insert
(`db.insert(advocates).values(advocateData).returning()`).  The seed
dataset module (`src/db/seed/advocates`) and the storage layer are absent
from the snapshot; per spec section 6 the insert succeeds on the first run
and raises a duplicate-key error when the dataset is already present, so
it is modelled as inserting `data` into an empty table and raising
PostgreSQL's duplicate-key message otherwise, leaving the rows
unchanged. -/
def seedInsert (data db : List Advocate) :
    Except String (List Advocate) :=
  if db.isEmpty then Except.ok data
  else Except.error
    "duplicate key value violates unique constraint \x22advocates_pkey\x22"

/-- `POST /api/seed` (`src/app/api/seed/route.ts`): insert the seed
dataset and answer 200 with `{ message, count, advocates }`; any thrown
error goes through `handleApiError`.  Returns the response together with
the resulting table contents. -/
def seedPost (data db : List Advocate) : ApiResponse × List Advocate :=
  match seedInsert data db with
  | Except.ok records =>
    ({ status := 200
       body := Json.obj
         [("message", Json.str "Database seeded successfully"),
          ("count", Json.num records.length),
          ("advocates", Json.arr (records.map advocateJson))] },
     db ++ records)
  | Except.error msg => (handleApiError (ApiError.plain msg) false, db)

/-- URL-encoding of one character as `URLSearchParams` serializes it
(`application/x-www-form-urlencoded`): ASCII alphanumerics and `*-._`
unchanged, space as `+`, other (ASCII) characters percent-encoded. -/
def urlEncodeChar (c : Char) : String :=
  if c.isAlphanum || c = '-' || c = '_' || c = '.' || c = '*' then
    String.singleton c
  else if c = ' ' then "+"
  else
    let n := c.toNat
    let hex := "0123456789ABCDEF".data
    String.mk ['%', hex.getD (n / 16 % 16) '0', hex.getD (n % 16) '0']

/-- `URLSearchParams` serialization of appended key/value pairs. -/
def urlEncodeParams (params : List (String × String)) : String :=
  String.intercalate "&"
    (params.map (fun p =>
      String.join (p.1.data.map urlEncodeChar) ++ "=" ++
      String.join (p.2.data.map urlEncodeChar)))

/-- The number of keys present on the filter object
(`Object.keys(filters).length`): each defined field is a key. -/
def definedKeyCount (f : FilterAdvocatesDto) : Nat :=
  (if f.search.isSome then 1 else 0) + (if f.city.isSome then 1 else 0) +
  (if f.degree.isSome then 1 else 0) + (if f.specialty.isSome then 1 else 0) +
  (if f.minYearsOfExperience.isSome then 1 else 0) +
  (if f.limit.isSome then 1 else 0) + (if f.offset.isSome then 1 else 0)

/-- `AdvocatesApi.buildQueryString` (`src/unnamed/part_004`): empty when
no filter object or no keys; otherwise appends `city`, `degree`,
`specialty` when truthy and `minYearsOfExperience` when defined, and
prefixes `?` when the serialization is non-empty.  (No other filter field
is appended.) -/
def buildQueryString (filters : Option FilterAdvocatesDto) : String :=
  match filters with
  | none => ""
  | some f =>
    if definedKeyCount f == 0 then ""
    else
      let params :=
        (if optTruthy f.city then [("city", f.city.getD "")] else []) ++
        (if optTruthy f.degree then [("degree", f.degree.getD "")] else []) ++
        (if optTruthy f.specialty then
          [("specialty", f.specialty.getD "")] else []) ++
        (match f.minYearsOfExperience with
         | some n => [("minYearsOfExperience", toString n)]
         | none => [])
      let qs := urlEncodeParams params
      if qs = "" then "" else "?" ++ qs

/-- `AdvocatesApi.getAll`: the URL it fetches. -/
def getAllUrl (filters : Option FilterAdvocatesDto) : String :=
  "/api/advocates" ++ buildQueryString filters

/-- A raw storage row as handed to `toAdvocateModel`: the `specialties`
column is `string[] | unknown` (arbitrary JSONB). -/
structure RawAdvocateRow where
  id : Option Int := none
  firstName : String := ""
  lastName : String := ""
  city : String := ""
  degree : String := ""
  specialties : Json := Json.arr []
  yearsOfExperience : Int := 0
  phoneNumber : Int := 1
  createdAt : Option String := none

/-- The converted model of a raw row; `specialties` keeps the JSON type so
the conversion's coercion is observable. -/
structure AdvocateModelRaw where
  id : Option Int
  firstName : String
  lastName : String
  city : String
  degree : String
  specialties : Json
  yearsOfExperience : Int
  phoneNumber : Int
  createdAt : Option String

/-- `Array.isArray`. -/
def isJsArray : Json → Bool
  | Json.arr _ => true
  | _ => false

/-- JavaScript truthiness of a JSON value: `""`, `0`, `false` and `null`
are falsy; every other value (including any array or object) is truthy. -/
def jsTruthy : Json → Bool
  | Json.str s => decide (s ≠ "")
  | Json.num n => decide (n ≠ 0)
  | Json.boolean b => b
  | Json.null => false
  | Json.arr _ => true
  | Json.obj _ => true

/-- `toAdvocateModel` of the conversion in force in this slice: the model
variant exporting the `advocates` pgTable (staged at
`src/server/lib/error-handler.ts` lines 100-123), which the paginated
repository (`src/unnamed/part_002`) and the seed route import as
`../models/model` / `@/server/advocates/models/model`.  It is a field
copy, with `specialties` computed as
`Array.isArray(data.specialties) ? data.specialties
  : (data.specialties as string[]) || []`:
a non-array value falls to the `||`, which keeps it unchanged when truthy
and yields the empty array only when falsy.  `createdAt` is carried
through (`new Date` conversion not modelled).  (A historical variant at
`src/server/advocates/models/model.ts` instead coerces every non-array to
`[]`.) -/
def toAdvocateModel (data : RawAdvocateRow) : AdvocateModelRaw :=
  { id := data.id
    firstName := data.firstName
    lastName := data.lastName
    city := data.city
    degree := data.degree
    specialties :=
      if isJsArray data.specialties then data.specialties
      else if jsTruthy data.specialties then data.specialties
      else Json.arr []
    yearsOfExperience := data.yearsOfExperience
    phoneNumber := data.phoneNumber
    createdAt := data.createdAt }

/-- Case-insensitive substring occurrence, stated the way the spec states
it: the search string appears in the field when both are lowercased. -/
def containsCI (s field : String) : Bool :=
  substrB (lowerL s.data) (lowerL field.data)

/-- Claim-side free-text search predicate, following the spec's words: the
search string appears case-insensitively in `firstName` or `lastName` or
`city` or `degree` or the serialized `specialties` sequence. -/
def specSearchMatch (s : String) (a : Advocate) : Bool :=
  containsCI s a.firstName || containsCI s a.lastName ||
  containsCI s a.city || containsCI s a.degree ||
  containsCI s (serializeSpecialties a.specialties)

/-- Claim-side `specialty` predicate: when a specialty filter is set, the
record's `specialties` sequence must contain that exact string. -/
def specialtyPass (o : Option String) (a : Advocate) : Bool :=
  match o with
  | some sp => if sp = "" then true else a.specialties.contains sp
  | none => true

/-- Claim-side `minYearsOfExperience` predicate. -/
def minYearsPass (o : Option Nat) (a : Advocate) : Bool :=
  match o with
  | some m => decide ((m : Int) ≤ a.yearsOfExperience)
  | none => true

/-- `search` strings free of the SQL LIKE metacharacters `%`, `_` and the
escape character; checked on the lowercased form (lowercasing fixes all
three characters, so this is equivalent to checking `s` itself). -/
def noLikeMeta (s : String) : Bool :=
  (lowerL s.data).all (fun c => !(c = '%' || c = '_' || c = '\\'))

/-- Sample record, shaped like the seed data. -/
def advSample1 : Advocate :=
  { id := some 1, firstName := "John", lastName := "Desai",
    city := "Phoenix", degree := "MD",
    specialties := ["Bipolar", "Anxiety"], yearsOfExperience := 5,
    phoneNumber := 5551234567 }

/-- Sample record whose `firstName` contains the letters `a`,`b`,`c`. -/
def advSample2 : Advocate :=
  { id := some 2, firstName := "abc", lastName := "z", city := "x",
    degree := "y", specialties := [], yearsOfExperience := 0,
    phoneNumber := 1 }

/-- A storable row that violates the response schema (`firstName` empty:
the `text` column is only NOT NULL, the schema also requires `min(1)`). -/
def advBad : Advocate :=
  { id := some 1, firstName := "", lastName := "Lee", city := "Austin",
    degree := "MD", specialties := [], yearsOfExperience := 1,
    phoneNumber := 7 }

theorem sufs_any_isEmpty (u : List Char) :
    (sufs u).any (fun t => t.isEmpty) = true := by
  induction u with
  | nil => rfl
  | cons c cs ih => simp [sufs, ih]

theorem likeMatch_nil (s : List Char) : likeMatch [] s = s.isEmpty := rfl

theorem likeMatch_cons (p : Char) (ps s : List Char) :
    likeMatch (p :: ps) s =
      (if p = '%' then (sufs s).any (fun t => likeMatch ps t)
       else if p = '\\' then
         match ps, s with
         | q :: ps2, c :: cs => q == c && likeMatch ps2 cs
         | _, _ => false
       else if p = '_' then
         match s with
         | _ :: cs => likeMatch ps cs
         | [] => false
       else
         match s with
         | c :: cs => p == c && likeMatch ps cs
         | [] => false) := by
  rw [likeMatch.eq_def]

theorem likeMatch_plain_append (p : List Char)
    (hp : p.all (fun c => !(c = '%' || c = '_' || c = '\\')) = true) :
    ∀ u, likeMatch (p ++ ['%']) u = p.isPrefixOf u := by
  induction p with
  | nil =>
    intro u
    show likeMatch ['%'] u = _
    rw [likeMatch_cons, if_pos rfl]
    simp only [likeMatch_nil]
    rw [sufs_any_isEmpty u]
    cases u <;> rfl
  | cons c p ih =>
    rw [List.all_cons, Bool.and_eq_true] at hp
    obtain ⟨hc, hp2⟩ := hp
    have hcc : (¬c = '%' ∧ ¬c = '_') ∧ ¬c = '\\' := by simpa using hc
    have hc1 : ¬(c = '%') := hcc.1.1
    have hc2 : ¬(c = '_') := hcc.1.2
    have hc3 : ¬(c = '\\') := hcc.2
    intro u
    rw [List.cons_append, likeMatch_cons, if_neg hc1, if_neg hc3, if_neg hc2]
    cases u with
    | nil => rfl
    | cons d us =>
      show (c == d && likeMatch (p ++ ['%']) us) = _
      rw [ih hp2]
      rfl

theorem likeMatch_percent_wrap (p : List Char)
    (hp : p.all (fun c => !(c = '%' || c = '_' || c = '\\')) = true)
    (u : List Char) :
    likeMatch ('%' :: (p ++ ['%'])) u = substrB p u := by
  rw [likeMatch_cons, if_pos rfl]
  unfold substrB
  have h : ∀ t, likeMatch (p ++ ['%']) t = p.isPrefixOf t :=
    likeMatch_plain_append p hp
  simp only [h]

theorem ilikeB_wrap_eq_containsCI (s : String) (hs : noLikeMeta s = true)
    (field : String) :
    ilikeB field ("%" ++ s ++ "%") = containsCI s field := by
  unfold ilikeB containsCI
  have hdata : ("%" ++ s ++ "%").data = '%' :: (s.data ++ ['%']) := by
    simp [String.data_append]
  rw [hdata]
  unfold lowerL
  rw [List.map_cons, List.map_append]
  have hlow : Char.toLower '%' = '%' := rfl
  rw [hlow]
  exact likeMatch_percent_wrap _ hs _

theorem searchCond_eq_spec (s : String) (hs : noLikeMeta s = true)
    (a : Advocate) : searchCond s a = specSearchMatch s a := by
  have h := ilikeB_wrap_eq_containsCI s hs
  simp only [searchCond, specSearchMatch, h]

theorem findByFilterPred_eq (f : FilterAdvocatesDto) (a : Advocate) :
    findByFilterPred f a =
      ((if optTruthy f.search then searchCond (f.search.getD "") a
        else true) &&
       (if optTruthy f.city && !optTruthy f.search then
         ilikeB a.city ("%" ++ f.city.getD "" ++ "%") else true) &&
       (if optTruthy f.degree && !optTruthy f.search then
         a.degree == f.degree.getD "" else true) &&
       (if optTruthy f.specialty then
         jsonbContainsArr a.specialties [f.specialty.getD ""] else true) &&
       (match f.minYearsOfExperience with
        | some m => decide ((m : Int) ≤ a.yearsOfExperience)
        | none => true)) := by
  unfold findByFilterPred filterConditions
  cases hm : f.minYearsOfExperience <;>
    simp only [List.all_append] <;> split_ifs <;>
    simp [List.all]

theorem filterConditions_search_drops_city_degree (f : FilterAdvocatesDto)
    (ht : optTruthy f.search = true) :
    filterConditions f =
      filterConditions { f with city := none, degree := none } := by
  simp [filterConditions, ht, show optTruthy none = false from rfl]

/-- C1 (amended: the search string is a nonempty string containing none of
the SQL LIKE metacharacters `%`, `_`, `\`): for every validated filter
whose `search` is set to such a string, a record satisfies the query
predicate exactly when the search string occurs case-insensitively in
`firstName`, `lastName`, `city`, `degree` or the serialized `specialties`
sequence, and the `specialty` and `minYearsOfExperience` predicates still
apply conjunctively; the `city` and `degree` field filters are ignored, so
the query result equals the result for the same filter with `city` and
`degree` cleared. -/
theorem c1_search_supersedes_city_degree (f : FilterAdvocatesDto)
    (s : String) (hf : f.search = some s) (hne : s ≠ "")
    (hs : noLikeMeta s = true) :
    (∀ a, findByFilterPred f a =
      (specSearchMatch s a && specialtyPass f.specialty a &&
       minYearsPass f.minYearsOfExperience a)) ∧
    (∀ limit offset db, findByFilter f limit offset db =
      findByFilter { f with city := none, degree := none } limit offset db) := by
  have ht : optTruthy f.search = true := by
    rw [hf]; simp [optTruthy, hne]
  constructor
  · intro a
    rw [findByFilterPred_eq, hf]
    simp only [Option.getD_some, ht, Bool.not_true, Bool.and_false,
      if_pos, if_false, Bool.true_and, if_true]
    rw [searchCond_eq_spec s hs a]
    cases hsp : f.specialty with
    | none =>
      cases hm : f.minYearsOfExperience <;>
        simp [specialtyPass, minYearsPass, optTruthy, hne]
    | some sp =>
      by_cases hspe : sp = "" <;>
        cases hm : f.minYearsOfExperience <;>
          simp [specialtyPass, minYearsPass, optTruthy, hspe, hne,
            jsonbContainsArr]
  · intro limit offset db
    unfold findByFilter whereClauseOpt findByFilterPred
    rw [filterConditions_search_drops_city_degree f ht]

/-- C1 counterexample: as stated the claim fails.  With the LIKE
metacharacter `%` in the search string (`search="a%c"`), the query matches
a record (`firstName "abc"`) in which `"a%c"` never appears as a
substring; and with `search` set to the empty string, the `city` filter is
not ignored, so `search` plus `city` differs from `search` alone. -/
theorem c1_counterexample :
    (specSearchMatch "a%c" advSample2 = false ∧
     findByFilterPred { search := some "a%c" } advSample2 = true ∧
     (findByFilter { search := some "a%c" } 10 0 [advSample2]).data =
       [advSample2]) ∧
    (findByFilterPred { search := some "" } advSample1 = true ∧
     findByFilterPred { search := some "", city := some "q" } advSample1 =
       false) := by
  constructor
  · refine ⟨by decide, by decide, by decide⟩
  · exact ⟨by decide, by decide⟩

theorem c1_witness :
    findByFilterPred { search := some "desai", city := some "ignored" }
        advSample1 =
      (specSearchMatch "desai" advSample1 && specialtyPass none advSample1 &&
       minYearsPass none advSample1) ∧
    findByFilter { search := some "desai", city := some "ignored" } 10 0
        [advSample1, advSample2] =
      findByFilter { search := some "desai" } 10 0
        [advSample1, advSample2] := by
  have h := c1_search_supersedes_city_degree
    { search := some "desai", city := some "ignored" } "desai" rfl
    (by decide) (by decide)
  exact ⟨h.1 advSample1, h.2 10 0 [advSample1, advSample2]⟩

theorem rows_of_whereClauseOpt (f : FilterAdvocatesDto) (db : List Advocate) :
    (match whereClauseOpt f with
     | some w => db.filter w
     | none => db) = db.filter (findByFilterPred f) := by
  unfold whereClauseOpt
  split_ifs with h
  · have he : filterConditions f = [] := List.isEmpty_iff.mp h
    have hp : findByFilterPred f = fun _ => true := by
      funext a
      unfold findByFilterPred
      rw [he]
      rfl
    rw [hp]
    exact (List.filter_true db).symm
  · rfl

theorem take_drop_sublist (l : List Advocate) (o k : Nat) :
    List.Sublist ((l.drop o).take k) l :=
  List.Sublist.trans (List.take_sublist _ _) (List.drop_sublist _ _)

/-- C2: for every filter, the repository's `total` is the number of
records satisfying the effective predicate with no limit/offset window
applied; the returned page is the limit/offset window of the same
filtered list (the page and count queries share one predicate), hence a
sub-window (sublist) of the counted set. -/
theorem c2_total_counts_unwindowed (filters : Option FilterAdvocatesDto)
    (db : List Advocate) :
    (findAll filters db).total =
      (db.filter (findAllPred filters)).length ∧
    (findAll filters db).data =
      ((db.filter (findAllPred filters)).drop
        ((filters.bind (fun f => f.offset)).getD 0)).take
        ((filters.bind (fun f => f.limit)).getD 10) ∧
    List.Sublist (findAll filters db).data
      (db.filter (findAllPred filters)) := by
  have main : findAll filters db =
      { data := ((db.filter (findAllPred filters)).drop
          ((filters.bind (fun f => f.offset)).getD 0)).take
          ((filters.bind (fun f => f.limit)).getD 10),
        total := (db.filter (findAllPred filters)).length } := by
    cases filters with
    | none =>
      simp [findAll, executePaginatedQuery,
        show findAllPred none = fun _ => true from rfl, List.filter_true]
    | some f =>
      by_cases h : hasFilters f
      · have hpred : findAllPred (some f) = findByFilterPred f := by
          funext a
          simp [findAllPred, h]
        simp only [findAll, h, if_true, findByFilter, executePaginatedQuery,
          Option.bind_some, hpred]
        rw [rows_of_whereClauseOpt f db]
      · have hpred : findAllPred (some f) = fun _ => true := by
          funext a
          simp [findAllPred, h]
        simp [findAll, h, executePaginatedQuery, hpred, List.filter_true]
  refine ⟨by rw [main], by rw [main], ?_⟩
  rw [main]
  exact take_drop_sublist _ _ _

/-- C5 (amended: the specialty filter value is nonempty): a record passes
a nonempty `specialty` filter exactly when its `specialties` sequence
contains the filter value as an element (set-containment via JSONB `@>`,
not substring matching); the empty-string value is falsy under the
`if (filter.specialty)` guard and pushes no condition at all. -/
theorem c5_specialty_exact_containment (sp : String) (a : Advocate)
    (hne : sp ≠ "") :
    findByFilterPred { specialty := some sp } a =
      a.specialties.contains sp := by
  rw [findByFilterPred_eq]
  simp [optTruthy, hne, jsonbContainsArr]

theorem c5_witness :
    (("Bipolar" : String) ≠ "" ∧
     findByFilterPred { specialty := some "Bipolar" } advSample1 = true) ∧
    (("bipolar and anxiety" : String) ≠ "" ∧
     findByFilterPred { specialty := some "bipolar and anxiety" }
       advSample1 = false) := by
  constructor
  · refine ⟨by decide, ?_⟩
    rw [c5_specialty_exact_containment "Bipolar" advSample1 (by decide)]
    decide
  · refine ⟨by decide, ?_⟩
    rw [c5_specialty_exact_containment "bipolar and anxiety" advSample1
      (by decide)]
    decide

/-- C5 counterexample: as stated the claim fails at the empty specialty
filter value.  `?specialty=` validates to `""`, which is falsy under the
`if (filter.specialty)` guard, so no condition is pushed and every record
matches the filter, although no record's `specialties` contains `""` as
an element. -/
theorem c5_counterexample :
    findByFilterPred { specialty := some "" } advSample1 = true ∧
    advSample1.specialties.contains "" = false ∧
    (findByFilter { specialty := some "" } 10 0 [advSample1]).data =
      [advSample1] := by
  refine ⟨by decide, by decide, by decide⟩

/-- C9: the row-to-model conversion in force does not coerce every
non-array storage value to the empty sequence: a truthy non-array such as
the bare string `"Bipolar"` falls through `(x as string[]) || []`
unchanged, so application code observes a non-array `specialties`; only a
falsy non-array value (e.g. `null`) is coerced to the empty array. -/
theorem c9_bare_string_passes_through :
    (toAdvocateModel { specialties := Json.str "Bipolar" }).specialties =
      Json.str "Bipolar" ∧
    isJsArray
      (toAdvocateModel { specialties := Json.str "Bipolar" }).specialties =
      false ∧
    (toAdvocateModel { specialties := Json.null }).specialties =
      Json.arr [] :=
  ⟨rfl, rfl, rfl⟩

/-- C3: the client query-string builder of the data-fetch layer drops the
`search`, `limit` and `offset` keys even when they are defined on the
filter object (the hook passes all three), while it does serialize
`city`: the claim's enumerated keys never reach the request URL. -/
theorem c3_buildQueryString_drops_search_limit_offset :
    buildQueryString
      (some { search := some "anxiety", limit := some 10,
              offset := some 0 }) = "" ∧
    getAllUrl
      (some { search := some "anxiety", limit := some 10,
              offset := some 0 }) = "/api/advocates" ∧
    buildQueryString (some { city := some "Phoenix" }) = "?city=Phoenix" := by
  refine ⟨by decide, by decide, by decide⟩

theorem safeParse_ok_fields (q : List (String × String))
    (f : FilterAdvocatesDto)
    (hok : filterAdvocatesSafeParse q = Except.ok f) :
    f = { search := lookupParam q "search", city := lookupParam q "city",
          degree := lookupParam q "degree",
          specialty := lookupParam q "specialty",
          minYearsOfExperience :=
            (coerceNonnegInt "minYearsOfExperience"
              (lookupParam q "minYearsOfExperience")).2,
          limit := (coercePosInt "limit" (lookupParam q "limit")).2,
          offset := (coerceNonnegInt "offset" (lookupParam q "offset")).2 } := by
  simp only [filterAdvocatesSafeParse] at hok
  split at hok
  · injection hok with h
    exact h.symm
  · cases hok

theorem safeParse_error_issues (q : List (String × String))
    (issues : List ZodIssue)
    (herr : filterAdvocatesSafeParse q = Except.error issues) :
    issues =
      (coerceNonnegInt "minYearsOfExperience"
        (lookupParam q "minYearsOfExperience")).1 ++
      (coercePosInt "limit" (lookupParam q "limit")).1 ++
      (coerceNonnegInt "offset" (lookupParam q "offset")).1 ∧
    issues ≠ [] := by
  simp only [filterAdvocatesSafeParse] at herr
  split at herr
  · cases herr
  · next heq =>
    injection herr with h2
    subst h2
    exact ⟨rfl, heq⟩

theorem coerceNonnegInt_paths (fld : String) (v : Option String) :
    ((coerceNonnegInt fld v).1).all (fun i => i.path.length == 1) = true := by
  unfold coerceNonnegInt
  cases v with
  | none => rfl
  | some s =>
    cases hjs : jsNumber s with
    | none => simp [hjs]
    | some r =>
      simp only [hjs]
      split_ifs <;> simp [List.all_append]

theorem coercePosInt_paths (fld : String) (v : Option String) :
    ((coercePosInt fld v).1).all (fun i => i.path.length == 1) = true := by
  unfold coercePosInt
  cases v with
  | none => rfl
  | some s =>
    cases hjs : jsNumber s with
    | none => simp [hjs]
    | some r =>
      simp only [hjs]
      split_ifs <;> simp [List.all_append]

/-- C4 (limit/offset schema modelled from the spec): a list request with
`limit=0` fails validation with HTTP 400 (`Validation error`), and when
the request carries no `limit` parameter the validated filter has no
limit, so the route and repository use an effective page size of exactly
10. -/
theorem c4_limit_zero_rejected_absent_defaults_ten (db : List Advocate)
    (q : List (String × String)) (f : FilterAdvocatesDto)
    (hok : filterAdvocatesSafeParse q = Except.ok f)
    (hno : lookupParam q "limit" = none) :
    (advocatesGet db [("limit", "0")]).status = 400 ∧
    jGet (advocatesGet db [("limit", "0")]).body "error" =
      some (Json.str "Validation error") ∧
    f.limit = none ∧ f.limit.getD 10 = 10 ∧
    (findAll (some f) db).data =
      ((db.filter (findAllPred (some f))).drop (f.offset.getD 0)).take
        10 := by
  have hl : f.limit = none := by
    rw [safeParse_ok_fields q f hok]
    simp [hno, coercePosInt]
  refine ⟨rfl, rfl, hl, by rw [hl]; rfl, ?_⟩
  have h2 := (c2_total_counts_unwindowed (some f) db).2.1
  simpa [hl] using h2

theorem c4_witness :
    (advocatesGet [advSample1] [("limit", "0")]).status = 400 ∧
    ({} : FilterAdvocatesDto).limit = none ∧
    (findAll (some {}) [advSample1]).data =
      (([advSample1].filter (findAllPred (some {}))).drop
        (({} : FilterAdvocatesDto).offset.getD 0)).take 10 := by
  have h := c4_limit_zero_rejected_absent_defaults_ten [advSample1] [] {}
    rfl rfl
  exact ⟨h.1, h.2.2.1, h.2.2.2.2⟩

/-- C8 (the `limit`/`offset` schema entries are modelled from the spec):
whenever query-parameter validation fails, the list endpoint answers 400
with body `{ error: "Validation error", details }`, where `details` holds
the formatted string of every collected issue; the issue list concatenates
the issues of every offending field (`minYearsOfExperience`, `limit`,
`offset` — the four plain string fields never fail), is non-empty, and
every issue has a single-segment path, so each detail string has the shape
`"<field>: <message>"`. -/
theorem c8_validation_errors_enumerate_fields (db : List Advocate)
    (q : List (String × String)) (issues : List ZodIssue)
    (herr : filterAdvocatesSafeParse q = Except.error issues) :
    advocatesGet db q =
      { status := 400,
        body := Json.obj
          [("error", Json.str "Validation error"),
           ("details",
            Json.arr (issues.map (fun i => Json.str (fmtIssue i))))] } ∧
    issues =
      (coerceNonnegInt "minYearsOfExperience"
        (lookupParam q "minYearsOfExperience")).1 ++
      (coercePosInt "limit" (lookupParam q "limit")).1 ++
      (coerceNonnegInt "offset" (lookupParam q "offset")).1 ∧
    issues ≠ [] ∧
    issues.all (fun i => i.path.length == 1) = true := by
  obtain ⟨hsplit, hnonempty⟩ := safeParse_error_issues q issues herr
  refine ⟨?_, hsplit, hnonempty, ?_⟩
  · simp [advocatesGet, herr, handleApiError]
  · rw [hsplit]
    simp only [List.all_append, Bool.and_eq_true]
    exact ⟨⟨coerceNonnegInt_paths _ _, coercePosInt_paths _ _⟩,
      coerceNonnegInt_paths _ _⟩

theorem c8_witness :
    advocatesGet [] [("minYearsOfExperience", "abc"), ("limit", "0")] =
      { status := 400,
        body := Json.obj
          [("error", Json.str "Validation error"),
           ("details", Json.arr
             [Json.str "minYearsOfExperience: Expected number, received nan",
              Json.str "limit: Number must be greater than 0"])] } ∧
    ([⟨["minYearsOfExperience"], "Expected number, received nan"⟩,
      ⟨["limit"], "Number must be greater than 0"⟩] : List ZodIssue) ≠
      [] := by
  have h := c8_validation_errors_enumerate_fields []
    [("minYearsOfExperience", "abc"), ("limit", "0")]
    [⟨["minYearsOfExperience"], "Expected number, received nan"⟩,
     ⟨["limit"], "Number must be greater than 0"⟩] rfl
  exact ⟨h.1, h.2.2.1⟩

/-- C10: when the repository hands the list route a record violating the
response schema, the ZodError thrown by the outgoing DTO validation is
routed through the shared `handleApiError`, producing the same
HTTP 400 `Validation error` shape as client input errors rather than a
5xx fault. -/
theorem c10_response_schema_failure_returns_400 (db : List Advocate)
    (q : List (String × String)) (f : FilterAdvocatesDto)
    (issues : List ZodIssue)
    (hok : filterAdvocatesSafeParse q = Except.ok f)
    (hbad : (findAll (some f) db).data.mapM advocateResponseParse =
      Except.error issues) :
    advocatesGet db q = handleApiError (ApiError.zod issues) false ∧
    (advocatesGet db q).status = 400 ∧
    jGet (advocatesGet db q).body "error" =
      some (Json.str "Validation error") := by
  have h1 : advocatesGet db q = handleApiError (ApiError.zod issues) false := by
    simp only [advocatesGet, hok, hbad]
  refine ⟨h1, ?_, ?_⟩ <;> rw [h1] <;> rfl

theorem c10_witness :
    (advocatesGet [advBad] []).status = 400 ∧
    jGet (advocatesGet [advBad] []).body "error" =
      some (Json.str "Validation error") := by
  have h := c10_response_schema_failure_returns_400 [advBad] [] {}
    [⟨["firstName"], "First name is required"⟩] rfl rfl
  exact ⟨h.2.1, h.2.2⟩

/-- C7 (amended: a found record yields 200 when it also satisfies the
response schema; a stored record violating the schema yields 400 through
the shared handler instead): a path segment that does not `parseInt` to a
positive integer gives 400 `Invalid ID`; a positive id with no matching
record gives 404 `{ error: "Not found", message }` with no `data` field; a
matching, schema-conforming record gives 200 `{ data }` in the per-item
shape of the list endpoint. -/
theorem c7_lookup_endpoint_statuses (db : List Advocate) (s : String) :
    ((parseIntJs s = none ∨ ∃ i, parseIntJs s = some i ∧ i ≤ 0) →
      advocateIdGet db s =
        { status := 400,
          body := Json.obj
            [("error", Json.str "Invalid ID"),
             ("message", Json.str "ID must be a positive integer")] }) ∧
    (∀ i, parseIntJs s = some i → 0 < i → findById db i = none →
      advocateIdGet db s =
        { status := 404,
          body := Json.obj
            [("error", Json.str "Not found"),
             ("message", Json.str
               ("Advocate with ID " ++ toString i ++ " not found"))] } ∧
      jGet (advocateIdGet db s).body "data" = none) ∧
    (∀ i a, parseIntJs s = some i → 0 < i → findById db i = some a →
      advocateResponseParse a = Except.ok a →
      advocateIdGet db s =
        { status := 200, body := Json.obj [("data", advocateJson a)] }) := by
  refine ⟨?_, ?_, ?_⟩
  · rintro (hnone | ⟨i, hi, hle⟩)
    · simp [advocateIdGet, hnone]
    · simp [advocateIdGet, hi, hle]
  · intro i hi hpos hnf
    have hgt : ¬i ≤ 0 := by omega
    have hresp : advocateIdGet db s =
        { status := 404,
          body := Json.obj
            [("error", Json.str "Not found"),
             ("message", Json.str
               ("Advocate with ID " ++ toString i ++ " not found"))] } := by
      simp [advocateIdGet, hi, hgt, hnf]
    exact ⟨hresp, by rw [hresp]; rfl⟩
  · intro i a hi hpos hfind hparse
    have hgt : ¬i ≤ 0 := by omega
    simp [advocateIdGet, hi, hgt, hfind, hparse]

/-- C7 counterexample: the claim's "found implies 200" branch fails as
stated: a stored row with id 1 and an empty `firstName` exists, yet the
lookup answers 400 (the outgoing schema validation throws), not 200. -/
theorem c7_counterexample :
    findById [advBad] 1 = some advBad ∧
    (advocateIdGet [advBad] "1").status = 400 ∧
    (advocateIdGet [advBad] "1").status ≠ 200 := by
  refine ⟨rfl, rfl, by decide⟩

theorem c7_witness :
    (advocateIdGet [advSample1] "abc").status = 400 ∧
    (advocateIdGet [advSample1] "-1").status = 400 ∧
    advocateIdGet [advSample1] "7" =
      { status := 404,
        body := Json.obj
          [("error", Json.str "Not found"),
           ("message", Json.str "Advocate with ID 7 not found")] } ∧
    jGet (advocateIdGet [advSample1] "7").body "data" = none ∧
    advocateIdGet [advSample1] "1" =
      { status := 200,
        body := Json.obj [("data", advocateJson advSample1)] } := by
  have h1 := (c7_lookup_endpoint_statuses [advSample1] "abc").1 (Or.inl rfl)
  have h2 := (c7_lookup_endpoint_statuses [advSample1] "-1").1
    (Or.inr ⟨-1, by decide, by decide⟩)
  have h3 := (c7_lookup_endpoint_statuses [advSample1] "7").2.1 7 rfl
    (by decide) rfl
  have h4 := (c7_lookup_endpoint_statuses [advSample1] "1").2.2 1 advSample1
    rfl (by decide) rfl rfl
  exact ⟨by rw [h1], by rw [h2], h3.1, h3.2, h4⟩

/-- C6 (amended: the 409 body is
`{ error: "Resource already exists", message }`, produced by the shared
error handler's duplicate-key branch — not
`{ error: "Database already seeded" }`; the seed-insert conflict itself is
modelled from the spec): the first seed run answers 200 with
`{ message, count, advocates }` and stores the dataset; a re-run answers
409 and leaves the rows unchanged. -/
theorem c6_seed_first_200_rerun_409 (data db : List Advocate) :
    (db = [] →
      (seedPost data db).1.status = 200 ∧
      jGet (seedPost data db).1.body "message" =
        some (Json.str "Database seeded successfully") ∧
      jGet (seedPost data db).1.body "count" =
        some (Json.num data.length) ∧
      jGet (seedPost data db).1.body "advocates" =
        some (Json.arr (data.map advocateJson)) ∧
      (seedPost data db).2 = data) ∧
    (db ≠ [] →
      (seedPost data db).1.status = 409 ∧
      jGet (seedPost data db).1.body "error" =
        some (Json.str "Resource already exists") ∧
      (seedPost data db).2 = db) := by
  constructor
  · intro h
    subst h
    exact ⟨rfl, rfl, rfl, rfl, by simp [seedPost, seedInsert]⟩
  · intro h
    have hne : db.isEmpty = false := by
      cases db
      · exact absurd rfl h
      · rfl
    have hresp : seedPost data db =
        (handleApiError (ApiError.plain
          "duplicate key value violates unique constraint \x22advocates_pkey\x22")
          false, db) := by
      simp [seedPost, seedInsert, hne]
    refine ⟨?_, ?_, ?_⟩ <;> rw [hresp] <;> rfl

/-- C6 counterexample: on a duplicate-key re-run the body's `error` field
is `"Resource already exists"` (the shared handler's wording), which is
not the claimed `"Database already seeded"`. -/
theorem c6_counterexample :
    (seedPost [advSample1] [advSample1]).1.status = 409 ∧
    jGet (seedPost [advSample1] [advSample1]).1.body "error" =
      some (Json.str "Resource already exists") ∧
    "Resource already exists" ≠ "Database already seeded" := by
  refine ⟨rfl, rfl, by decide⟩

theorem c6_witness :
    ((seedPost [advSample1] []).1.status = 200 ∧
     jGet (seedPost [advSample1] []).1.body "count" =
       some (Json.num 1) ∧
     (seedPost [advSample1] []).2 = [advSample1]) ∧
    ((seedPost [advSample1] [advSample1]).1.status = 409 ∧
     (seedPost [advSample1] [advSample1]).2 = [advSample1]) := by
  have h1 := (c6_seed_first_200_rerun_409 [advSample1] []).1 rfl
  have h2 := (c6_seed_first_200_rerun_409 [advSample1] [advSample1]).2
    (List.cons_ne_nil _ _)
  exact ⟨⟨h1.1, h1.2.2.1, h1.2.2.2.2⟩, ⟨h2.1, h2.2.2⟩⟩
